import Mathlib

/-!
Verification development for the webgpu-playground demos.

The demos are TypeScript programs that fill CPU-side `Float32Array`s with
per-object parameters and upload them to GPU buffers every frame.  Float
values are modelled as rationals (`ℚ`); a `Float32Array` is modelled as a
length together with an index-to-value map, and `Float32Array.prototype.set`
as a bounded block write.  Each demo's constants and functions are embedded
under a namespace named after its source file.
-/

/-- Model of a JavaScript `Float32Array`: a fixed length plus the value at
each index.  A fresh array is zero-filled, as in JavaScript. -/
structure F32Array where
  len : Nat
  data : Nat → ℚ

/-- A zero-filled `Float32Array` of the given element count
(`new Float32Array(n)`). -/
def F32Array.zeros (n : Nat) : F32Array := ⟨n, fun _ => 0⟩

/-- Model of `Float32Array.prototype.set(vals, off)`: writes the block
`vals` starting at element index `off`.  The write happens only when it is
in bounds (an out-of-bounds `set` throws in JavaScript; the demos only ever
write in bounds). -/
def F32Array.set (a : F32Array) (vals : List ℚ) (off : Nat) : F32Array :=
  if off + vals.length ≤ a.len then
    ⟨a.len, fun j => if off ≤ j ∧ j < off + vals.length then vals.getD (j - off) 0 else a.data j⟩
  else a

theorem F32Array.set_len (a : F32Array) (vals : List ℚ) (off : Nat) :
    (a.set vals off).len = a.len := by
  unfold F32Array.set
  split <;> rfl

theorem F32Array.set_data (a : F32Array) (vals : List ℚ) (off : Nat)
    (hle : off + vals.length ≤ a.len) (j : Nat) :
    (a.set vals off).data j =
      if off ≤ j ∧ j < off + vals.length then vals.getD (j - off) 0 else a.data j := by
  unfold F32Array.set
  rw [if_pos hle]

theorem F32Array.eq_of (a b : F32Array) (h1 : a.len = b.len)
    (h2 : ∀ j, a.data j = b.data j) : a = b := by
  cases a; cases b
  simp only [F32Array.mk.injEq]
  exact ⟨h1, funext h2⟩

/-- Modelled from the spec: the helper `rand(min, max)` lives in
`src/utils/random`, which is not present under `src/`.  The spec says static
fields are "drawn independent random values ... from fixed ranges", so the
helper is modelled as the standard affine map of a random sample
`r ∈ [0, 1)` onto `[min, max)`: `rand r min max = min + r * (max - min)`. -/
def rand (r mn mx : ℚ) : ℚ := mn + r * (mx - mn)

namespace StorageBuffers
/-!
Embedding of the storage-buffer demo (the instanced-draw variant in
`src/basicTriangle/main.ts`): one static storage buffer for
`color`/`offset`, one changing storage buffer for `scale`/`time`, a single
instanced draw of `kNumObjects` triangles.
-/

/-- CPU-side per-object record: only the base scale factor. -/
structure ObjectInfo where
  scale : ℚ
deriving DecidableEq

instance : Inhabited ObjectInfo := ⟨⟨0⟩⟩

/-- Bytes per static record: `4*4 (color) + 2*4 (offset) + 2*4 (padding)`. -/
def staticUnitSize : Nat := 4 * 4 + 2 * 4 + 2 * 4

/-- Bytes per changing record: `2*4 (scale) + 1*4 (time) + 1*4 (padding)`. -/
def changingUnitSize : Nat := 2 * 4 + 1 * 4 + 1 * 4

/-- Byte size of the static storage buffer for a given object count. -/
def staticStorageBufferSize (numObjects : Nat) : Nat := staticUnitSize * numObjects

/-- Byte size of the changing storage buffer for a given object count. -/
def changingStorageBufferSize (numObjects : Nat) : Nat := changingUnitSize * numObjects

/-- Float-element offset of `color` within a static record. -/
def kColorOffset : Nat := 0

/-- Float-element offset of `offset` within a static record. -/
def kOffsetOffset : Nat := 4

/-- Float-element offset of `scale` within a changing record. -/
def kScaleOffset : Nat := 0

/-- Float-element offset of `time` within a changing record. -/
def kTimeOffset : Nat := 2

/-- The demo's compile-time object count. -/
def kNumObjects : Nat := 100

/-- One iteration of the triangle-generation loop: writes object `i`'s
random color (alpha forced to 1) and random offset into the static values
array.  The random stream `rng` yields samples in `[0, 1)`; object `i`
consumes samples `6*i .. 6*i+5` (three color channels, two offset
components, one base scale). -/
def writeStaticObject (rng : Nat → ℚ) (i : Nat) (a : F32Array) : F32Array :=
  let staticOffset := i * (staticUnitSize / 4)
  let a1 := a.set
    [rand (rng (6 * i)) 0 1, rand (rng (6 * i + 1)) 0 1, rand (rng (6 * i + 2)) 0 1, 1]
    (staticOffset + kColorOffset)
  a1.set [rand (rng (6 * i + 3)) (-1) 1, rand (rng (6 * i + 4)) (-1) 1]
    (staticOffset + kOffsetOffset)

/-- The static values array after the generation loop has processed objects
`0 .. n-1`, starting from a zero-filled array of the declared size. -/
def staticStorageValues (n : Nat) (rng : Nat → ℚ) : F32Array :=
  (List.range n).foldl (fun a i => writeStaticObject rng i a)
    (F32Array.zeros (staticStorageBufferSize n / 4))

/-- The `objectInfos` list after the generation loop: object `i` gets base
scale `rand(0.2, 0.5)` from sample `6*i+5`. -/
def objectInfos (n : Nat) (rng : Nat → ℚ) : List ObjectInfo :=
  (List.range n).map (fun i => ⟨rand (rng (6 * i + 5)) (2/10) (5/10)⟩)

/-- One iteration of the per-frame update loop in `render`: for record `i`,
writes `[scale / aspect, scale]` at the record's scale offset and `[time]`
at its time offset in the changing values array. -/
def updateStep (infos : List ObjectInfo) (time aspect : ℚ) (acc : F32Array) (i : Nat) : F32Array :=
  let offset := i * (changingUnitSize / 4)
  let scale := (infos.getD i default).scale
  let acc1 := acc.set [scale / aspect, scale] (offset + kScaleOffset)
  acc1.set [time] (offset + kTimeOffset)

/-- The per-frame update loop of `render`, iterating `updateStep` over all
records. -/
def updateStorageValues (infos : List ObjectInfo) (time aspect : ℚ) (a : F32Array) : F32Array :=
  (List.range infos.length).foldl (updateStep infos time aspect) a

/-- The full per-frame relevant state of the demo: the record list, the
CPU-side static and changing values arrays, and the contents last uploaded
to the two GPU storage buffers via `device.queue.writeBuffer`. -/
structure DemoState where
  objectInfos : List ObjectInfo
  staticValues : F32Array
  storageValues : F32Array
  staticBuffer : F32Array
  changingBuffer : F32Array

/-- The state right after `main`'s initialization for `n` objects: static
values generated and uploaded once, changing values zero-filled and not yet
uploaded. -/
def initState (n : Nat) (rng : Nat → ℚ) : DemoState :=
  let sv := staticStorageValues n rng
  { objectInfos := objectInfos n rng
    staticValues := sv
    storageValues := F32Array.zeros (changingStorageBufferSize n / 4)
    staticBuffer := sv
    changingBuffer := F32Array.zeros (changingStorageBufferSize n / 4) }

/-- One invocation of the `render` callback as a state transformer:
`time = timeStamp ?? 0`, `aspect = canvas.width / canvas.height`, run the
update loop over the changing values, then upload them in one
`writeBuffer`.  The static arrays are not mentioned in the callback body. -/
def render (s : DemoState) (timeStamp : Option ℚ) (canvasWidth canvasHeight : ℚ) : DemoState :=
  let time := timeStamp.getD 0
  let aspect := canvasWidth / canvasHeight
  let sv := updateStorageValues s.objectInfos time aspect s.storageValues
  { s with storageValues := sv, changingBuffer := sv }

/-- Runs the `render` callback once per entry of `frames`; each entry is a
timestamp plus the canvas dimensions current at that frame. -/
def runFrames (s : DemoState) (frames : List (Option ℚ × ℚ × ℚ)) : DemoState :=
  frames.foldl (fun st f => render st f.1 f.2.1 f.2.2) s

/-- The observable actions of one `render` invocation, in program order.
The first statement of the callback is `requestAnimationFrame(render)`. -/
inductive FrameEvent where
  | scheduleNextFrame
  | computeAspect
  | beginPass
  | setPipeline
  | updateRecord
  | uploadDynamic
  | setBindGroup
  | draw
  | submit
deriving DecidableEq

/-- The action trace of one `render` invocation for `n` records. -/
def renderEvents (n : Nat) : List FrameEvent :=
  [FrameEvent.scheduleNextFrame, FrameEvent.computeAspect, FrameEvent.beginPass,
    FrameEvent.setPipeline] ++
  (List.range n).map (fun _ => FrameEvent.updateRecord) ++
  [FrameEvent.uploadDynamic, FrameEvent.setBindGroup, FrameEvent.draw, FrameEvent.submit]

/-- The observable actions of `main` up to the start of the render loop. -/
inductive InitEvent where
  | errorDisplayed (msg : String)
  | configureContext
  | createShaderModule
  | createPipeline
  | createBuffer
  | writeStaticBuffer
  | createBindGroup
  | scheduleFrame
deriving DecidableEq

/-- The action trace of `main`, branching on whether the capability gate
obtained a device and a canvas context.  On either failure `main` calls
`displayError` once and returns before any resource is created. -/
def mainTrace (deviceAvailable contextAvailable : Bool) : List InitEvent :=
  if !deviceAvailable then [InitEvent.errorDisplayed "This page requires WebGPU"]
  else if !contextAvailable then [InitEvent.errorDisplayed "Canvas not found"]
  else
    [InitEvent.configureContext, InitEvent.createShaderModule, InitEvent.createPipeline,
      InitEvent.createBuffer, InitEvent.createBuffer, InitEvent.writeStaticBuffer,
      InitEvent.createBindGroup, InitEvent.scheduleFrame]

/-- Tests whether an init event is an error message. -/
def InitEvent.isError : InitEvent → Bool
  | InitEvent.errorDisplayed _ => true
  | _ => false

/-- Tests whether an init event creates a pipeline or a buffer. -/
def InitEvent.createsResource : InitEvent → Bool
  | InitEvent.createPipeline => true
  | InitEvent.createBuffer => true
  | _ => false

/-- The value the update loop stores at float slot `r` (0 = scale.x,
1 = scale.y, 2 = time) of record `i`; used to state the loop's effect. -/
def updatedValue (infos : List ObjectInfo) (time aspect : ℚ) (i r : Nat) : ℚ :=
  if r = 0 then (infos.getD i default).scale / aspect
  else if r = 1 then (infos.getD i default).scale
  else time

/-- The value the generation loop stores at float slot `r` (0-3 = color
rgba, 4-5 = offset xy) of static record `i`; used to state the loop's
effect. -/
def staticValue (rng : Nat → ℚ) (i r : Nat) : ℚ :=
  if r = 0 then rand (rng (6 * i)) 0 1
  else if r = 1 then rand (rng (6 * i + 1)) 0 1
  else if r = 2 then rand (rng (6 * i + 2)) 0 1
  else if r = 3 then 1
  else if r = 4 then rand (rng (6 * i + 3)) (-1) 1
  else rand (rng (6 * i + 4)) (-1) 1

end StorageBuffers

namespace Uniforms
/-!
Byte-layout constants of the per-object-uniform-buffers demo
(`src/uniforms/main.ts`): the same static/dynamic split as the storage
demo, one `staticUniformBuffer` and one `uniformBuffer` per object.
-/

/-- Bytes per static uniform buffer: `4*4 (color) + 2*4 (offset) + 2*4 (padding)`. -/
def staticUniformBufferSize : Nat := 4 * 4 + 2 * 4 + 2 * 4

/-- Bytes per changing uniform buffer: `2*4 (scale) + 1*4 (time) + 1*4 (padding)`. -/
def uniformBufferSize : Nat := 2 * 4 + 1 * 4 + 1 * 4

/-- Float-element offset of `color`. -/
def kColorOffset : Nat := 0

/-- Float-element offset of `offset`. -/
def kOffsetOffset : Nat := 4

/-- Float-element offset of `scale`. -/
def kScaleOffset : Nat := 0

/-- Float-element offset of `time`. -/
def kTimeOffset : Nat := 2

end Uniforms

namespace CombinedUniform
/-!
Byte-layout constants of the single-combined-struct demo (the unnamed
source file with `struct MyStruct { color, scale, offset, time }`): all
four fields in one uniform buffer per object.
-/

/-- Bytes per uniform buffer:
`4*4 (color) + 2*4 (scale) + 2*4 (offset) + 1*4 (time) + 3*4 (padding)`. -/
def uniformBufferSize : Nat := 4 * 4 + 2 * 4 + 2 * 4 + 1 * 4 + 3 * 4

/-- Float-element offset of `color`. -/
def kColorOffset : Nat := 0

/-- Float-element offset of `scale`. -/
def kScaleOffset : Nat := 4

/-- Float-element offset of `offset`. -/
def kOffsetOffset : Nat := 6

/-- Float-element offset of `time`. -/
def kTimeOffset : Nat := 8

end CombinedUniform

namespace StorageBuffers

theorem updateStep_len (infos : List ObjectInfo) (t asp : ℚ) (acc : F32Array) (i : Nat) :
    (updateStep infos t asp acc i).len = acc.len := by
  simp [updateStep, F32Array.set_len]

theorem updateFold_len (infos : List ObjectInfo) (t asp : ℚ) (n : Nat) (a : F32Array) :
    ((List.range n).foldl (updateStep infos t asp) a).len = a.len := by
  induction n with
  | zero => simp
  | succ m ih =>
    rw [List.range_succ, List.foldl_append, List.foldl_cons, List.foldl_nil, updateStep_len, ih]

theorem updateFold_data (infos : List ObjectInfo) (t asp : ℚ) (n : Nat) (a : F32Array)
    (hlen : 4 * n ≤ a.len) (j : Nat) :
    ((List.range n).foldl (updateStep infos t asp) a).data j =
      if j < 4 * n ∧ j % 4 < 3 then updatedValue infos t asp (j / 4) (j % 4)
      else a.data j := by
  induction n with
  | zero => simp
  | succ m ih =>
    rw [List.range_succ, List.foldl_append, List.foldl_cons, List.foldl_nil]
    have hBlen : ((List.range m).foldl (updateStep infos t asp) a).len = a.len :=
      updateFold_len infos t asp m a
    set B := (List.range m).foldl (updateStep infos t asp) a with hB
    have hcu : changingUnitSize / 4 = 4 := by decide
    simp only [updateStep, hcu, kScaleOffset, kTimeOffset]
    have h1 : m * 4 + 0 + [((infos.getD m default).scale / asp), (infos.getD m default).scale].length
        ≤ B.len := by
      simp only [List.length_cons, List.length_nil, hBlen]
      omega
    have h2len : (B.set [((infos.getD m default).scale / asp), (infos.getD m default).scale]
        (m * 4 + 0)).len = B.len := F32Array.set_len _ _ _
    have h2 : m * 4 + 2 + [t].length
        ≤ (B.set [((infos.getD m default).scale / asp), (infos.getD m default).scale]
            (m * 4 + 0)).len := by
      simp only [List.length_cons, List.length_nil, h2len, hBlen]
      omega
    rw [F32Array.set_data _ _ _ h2, F32Array.set_data _ _ _ h1]
    simp only [List.length_cons, List.length_nil]
    have ihB : B.data j =
        if j < 4 * m ∧ j % 4 < 3 then updatedValue infos t asp (j / 4) (j % 4)
        else a.data j := ih (by omega)
    by_cases hj2 : j = 4 * m + 2
    · subst hj2
      rw [if_pos (by omega)]
      rw [if_pos (by omega)]
      have hi0 : 4 * m + 2 - (m * 4 + 2) = 0 := by omega
      have hq : (4 * m + 2) / 4 = m := by omega
      have hr : (4 * m + 2) % 4 = 2 := by omega
      rw [hi0, hq, hr]
      simp [updatedValue]
    · by_cases hj0 : j = 4 * m
      · subst hj0
        rw [if_neg (by omega), if_pos (by omega), if_pos (by omega)]
        have hi0 : 4 * m - (m * 4 + 0) = 0 := by omega
        have hq : (4 * m) / 4 = m := by omega
        have hr : (4 * m) % 4 = 0 := by omega
        rw [hi0, hq, hr]
        simp [updatedValue]
      · by_cases hj1 : j = 4 * m + 1
        · subst hj1
          rw [if_neg (by omega), if_pos (by omega), if_pos (by omega)]
          have hi1 : 4 * m + 1 - (m * 4 + 0) = 1 := by omega
          have hq : (4 * m + 1) / 4 = m := by omega
          have hr : (4 * m + 1) % 4 = 1 := by omega
          rw [hi1, hq, hr]
          simp [updatedValue]
        · rw [if_neg (by omega), if_neg (by omega), ihB]
          by_cases hlt : j < 4 * m ∧ j % 4 < 3
          · rw [if_pos hlt, if_pos (by omega)]
          · rw [if_neg hlt, if_neg (by omega)]

theorem updateStorageValues_len (infos : List ObjectInfo) (t asp : ℚ) (a : F32Array) :
    (updateStorageValues infos t asp a).len = a.len :=
  updateFold_len infos t asp infos.length a

theorem updateStorageValues_data (infos : List ObjectInfo) (t asp : ℚ) (a : F32Array)
    (hlen : 4 * infos.length ≤ a.len) (j : Nat) :
    (updateStorageValues infos t asp a).data j =
      if j < 4 * infos.length ∧ j % 4 < 3 then updatedValue infos t asp (j / 4) (j % 4)
      else a.data j :=
  updateFold_data infos t asp infos.length a hlen j

theorem writeStaticObject_len (rng : Nat → ℚ) (i : Nat) (a : F32Array) :
    (writeStaticObject rng i a).len = a.len := by
  simp [writeStaticObject, F32Array.set_len]

theorem staticFold_len (rng : Nat → ℚ) (n : Nat) (a : F32Array) :
    ((List.range n).foldl (fun acc i => writeStaticObject rng i acc) a).len = a.len := by
  induction n with
  | zero => simp
  | succ m ih =>
    rw [List.range_succ, List.foldl_append, List.foldl_cons, List.foldl_nil,
      writeStaticObject_len, ih]

theorem staticFold_data (rng : Nat → ℚ) (n : Nat) (a : F32Array)
    (hlen : 8 * n ≤ a.len) (j : Nat) :
    ((List.range n).foldl (fun acc i => writeStaticObject rng i acc) a).data j =
      if j < 8 * n ∧ j % 8 < 6 then staticValue rng (j / 8) (j % 8)
      else a.data j := by
  induction n with
  | zero => simp
  | succ m ih =>
    rw [List.range_succ, List.foldl_append, List.foldl_cons, List.foldl_nil]
    have hBlen : ((List.range m).foldl (fun acc i => writeStaticObject rng i acc) a).len = a.len :=
      staticFold_len rng m a
    set B := (List.range m).foldl (fun acc i => writeStaticObject rng i acc) a with hB
    have hsu : staticUnitSize / 4 = 8 := by decide
    simp only [writeStaticObject, hsu, kColorOffset, kOffsetOffset]
    have h1 : m * 8 + 0 +
        [rand (rng (6 * m)) 0 1, rand (rng (6 * m + 1)) 0 1, rand (rng (6 * m + 2)) 0 1,
          (1 : ℚ)].length ≤ B.len := by
      simp only [List.length_cons, List.length_nil, hBlen]
      omega
    have h2len : (B.set
        [rand (rng (6 * m)) 0 1, rand (rng (6 * m + 1)) 0 1, rand (rng (6 * m + 2)) 0 1, 1]
        (m * 8 + 0)).len = B.len := F32Array.set_len _ _ _
    have h2 : m * 8 + 4 + [rand (rng (6 * m + 3)) (-1) 1, rand (rng (6 * m + 4)) (-1) 1].length
        ≤ (B.set
            [rand (rng (6 * m)) 0 1, rand (rng (6 * m + 1)) 0 1, rand (rng (6 * m + 2)) 0 1, 1]
            (m * 8 + 0)).len := by
      simp only [List.length_cons, List.length_nil, h2len, hBlen]
      omega
    rw [F32Array.set_data _ _ _ h2, F32Array.set_data _ _ _ h1]
    simp only [List.length_cons, List.length_nil]
    have ihB : B.data j =
        if j < 8 * m ∧ j % 8 < 6 then staticValue rng (j / 8) (j % 8)
        else a.data j := ih (by omega)
    by_cases hout : 8 * m ≤ j ∧ j < 8 * m + 6
    · have hcases : j = 8 * m ∨ j = 8 * m + 1 ∨ j = 8 * m + 2 ∨ j = 8 * m + 3 ∨
          j = 8 * m + 4 ∨ j = 8 * m + 5 := by omega
      rcases hcases with h | h | h | h | h | h
      · subst h
        rw [if_neg (by omega), if_pos (by omega), if_pos (by omega),
          show 8 * m - (m * 8 + 0) = 0 from by omega,
          show 8 * m / 8 = m from by omega,
          show (8 * m) % 8 = 0 from by omega]
        simp [staticValue]
      · subst h
        rw [if_neg (by omega), if_pos (by omega), if_pos (by omega),
          show 8 * m + 1 - (m * 8 + 0) = 1 from by omega,
          show (8 * m + 1) / 8 = m from by omega,
          show (8 * m + 1) % 8 = 1 from by omega]
        simp [staticValue]
      · subst h
        rw [if_neg (by omega), if_pos (by omega), if_pos (by omega),
          show 8 * m + 2 - (m * 8 + 0) = 2 from by omega,
          show (8 * m + 2) / 8 = m from by omega,
          show (8 * m + 2) % 8 = 2 from by omega]
        simp [staticValue]
      · subst h
        rw [if_neg (by omega), if_pos (by omega), if_pos (by omega),
          show 8 * m + 3 - (m * 8 + 0) = 3 from by omega,
          show (8 * m + 3) / 8 = m from by omega,
          show (8 * m + 3) % 8 = 3 from by omega]
        simp [staticValue]
      · subst h
        rw [if_pos (by omega), if_pos (by omega),
          show 8 * m + 4 - (m * 8 + 4) = 0 from by omega,
          show (8 * m + 4) / 8 = m from by omega,
          show (8 * m + 4) % 8 = 4 from by omega]
        simp [staticValue]
      · subst h
        rw [if_pos (by omega), if_pos (by omega),
          show 8 * m + 5 - (m * 8 + 4) = 1 from by omega,
          show (8 * m + 5) / 8 = m from by omega,
          show (8 * m + 5) % 8 = 5 from by omega]
        simp [staticValue]
    · rw [if_neg (by omega), if_neg (by omega), ihB]
      by_cases hlt : j < 8 * m ∧ j % 8 < 6
      · rw [if_pos hlt, if_pos (by omega)]
      · rw [if_neg hlt, if_neg (by omega)]

theorem staticStorageValues_len (n : Nat) (rng : Nat → ℚ) :
    (staticStorageValues n rng).len = staticStorageBufferSize n / 4 := by
  unfold staticStorageValues
  rw [staticFold_len]
  rfl

theorem staticStorageValues_data (n : Nat) (rng : Nat → ℚ) (j : Nat) :
    (staticStorageValues n rng).data j =
      if j < 8 * n ∧ j % 8 < 6 then staticValue rng (j / 8) (j % 8) else 0 := by
  unfold staticStorageValues
  have hlen : 8 * n ≤ (F32Array.zeros (staticStorageBufferSize n / 4)).len := by
    simp only [F32Array.zeros, staticStorageBufferSize, staticUnitSize]
    omega
  rw [staticFold_data rng n _ hlen j]
  rfl

theorem rand_mem_Icc (r mn mx : ℚ) (h0 : 0 ≤ r) (h1 : r < 1) (hle : mn ≤ mx) :
    mn ≤ rand r mn mx ∧ rand r mn mx ≤ mx := by
  unfold rand
  constructor
  · nlinarith [mul_nonneg h0 (by linarith : (0:ℚ) ≤ mx - mn)]
  · nlinarith [mul_nonneg (by linarith : (0:ℚ) ≤ 1 - r) (by linarith : (0:ℚ) ≤ mx - mn)]

theorem objectInfos_length (n : Nat) (rng : Nat → ℚ) : (objectInfos n rng).length = n := by
  simp [objectInfos]

theorem objectInfos_getD (n : Nat) (rng : Nat → ℚ) (i : Nat) (hi : i < n) :
    (objectInfos n rng).getD i default = ⟨rand (rng (6 * i + 5)) (2/10) (5/10)⟩ := by
  unfold objectInfos
  rw [List.getD_eq_getElem _ _ (by simpa using hi)]
  simp

theorem render_staticValues (s : DemoState) (ts : Option ℚ) (w h : ℚ) :
    (render s ts w h).staticValues = s.staticValues := rfl

theorem render_staticBuffer (s : DemoState) (ts : Option ℚ) (w h : ℚ) :
    (render s ts w h).staticBuffer = s.staticBuffer := rfl

theorem render_objectInfos (s : DemoState) (ts : Option ℚ) (w h : ℚ) :
    (render s ts w h).objectInfos = s.objectInfos := rfl

theorem runFrames_staticValues (s : DemoState) (frames : List (Option ℚ × ℚ × ℚ)) :
    (runFrames s frames).staticValues = s.staticValues := by
  induction frames generalizing s with
  | nil => rfl
  | cons f fs ih => exact (ih (render s f.1 f.2.1 f.2.2)).trans rfl

theorem runFrames_staticBuffer (s : DemoState) (frames : List (Option ℚ × ℚ × ℚ)) :
    (runFrames s frames).staticBuffer = s.staticBuffer := by
  induction frames generalizing s with
  | nil => rfl
  | cons f fs ih => exact (ih (render s f.1 f.2.1 f.2.2)).trans rfl

/-- C1: for every record and every frame, the update loop writes the
dynamic scale pair `(baseScale / aspectRatio, baseScale)` and the raw
elapsed-time scalar into the changing packed buffer at that record's
offset. -/
theorem c1_update_writes_dynamic_fields (infos : List ObjectInfo) (t asp : ℚ)
    (a : F32Array) (hlen : 4 * infos.length ≤ a.len) (i : Nat) (hi : i < infos.length) :
    (updateStorageValues infos t asp a).data (i * (changingUnitSize / 4) + kScaleOffset)
        = (infos.getD i default).scale / asp ∧
    (updateStorageValues infos t asp a).data (i * (changingUnitSize / 4) + kScaleOffset + 1)
        = (infos.getD i default).scale ∧
    (updateStorageValues infos t asp a).data (i * (changingUnitSize / 4) + kTimeOffset)
        = t := by
  have hcu : changingUnitSize / 4 = 4 := by decide
  simp only [hcu, kScaleOffset, kTimeOffset]
  refine ⟨?_, ?_, ?_⟩
  · rw [updateStorageValues_data infos t asp a hlen, if_pos (by omega),
      show (i * 4 + 0) / 4 = i from by omega, show (i * 4 + 0) % 4 = 0 from by omega]
    simp [updatedValue]
  · rw [updateStorageValues_data infos t asp a hlen, if_pos (by omega),
      show (i * 4 + 0 + 1) / 4 = i from by omega, show (i * 4 + 0 + 1) % 4 = 1 from by omega]
    simp [updatedValue]
  · rw [updateStorageValues_data infos t asp a hlen, if_pos (by omega),
      show (i * 4 + 2) / 4 = i from by omega, show (i * 4 + 2) % 4 = 2 from by omega]
    simp [updatedValue]

/-- Witness for C1, instantiating the spec's end-to-end scenario: one
record with base scale `0.4`, aspect ratio `2.0`, so the floats written at
the record's dynamic offset are `[0.2, 0.4, time]` (here `time = 123`). -/
theorem c1_update_writes_dynamic_fields_witness :
    (updateStorageValues [⟨2/5⟩] 123 2 (F32Array.zeros 4)).data 0 = 1/5 ∧
    (updateStorageValues [⟨2/5⟩] 123 2 (F32Array.zeros 4)).data 1 = 2/5 ∧
    (updateStorageValues [⟨2/5⟩] 123 2 (F32Array.zeros 4)).data 2 = 123 := by
  have h := c1_update_writes_dynamic_fields [⟨2/5⟩] 123 2 (F32Array.zeros 4)
    (by decide) 0 (by decide)
  have hcu : changingUnitSize / 4 = 4 := by decide
  rcases h with ⟨h1, h2, h3⟩
  rw [hcu] at h1 h2 h3
  norm_num at h1 h2 h3
  exact ⟨h1, h2, h3⟩

/-- C2: the static fields are written exactly once during initialization
(the initial state's static arrays are the generation loop's output) and no
sequence of render frames ever alters the CPU-side static values or the
uploaded static buffer contents, while dynamic writes land in the
separately sized changing buffer. -/
theorem c2_static_bytes_stable (n : Nat) (rng : Nat → ℚ)
    (frames : List (Option ℚ × ℚ × ℚ)) :
    (runFrames (initState n rng) frames).staticValues = staticStorageValues n rng ∧
    (runFrames (initState n rng) frames).staticBuffer = staticStorageValues n rng ∧
    (runFrames (initState n rng) frames).staticValues.len * 4 = staticStorageBufferSize n ∧
    (runFrames (initState n rng) frames).storageValues.len * 4 = changingStorageBufferSize n := by
  refine ⟨(runFrames_staticValues _ _).trans rfl, (runFrames_staticBuffer _ _).trans rfl, ?_, ?_⟩
  · rw [runFrames_staticValues]
    show (staticStorageValues n rng).len * 4 = staticStorageBufferSize n
    rw [staticStorageValues_len]
    simp only [staticStorageBufferSize, staticUnitSize]
    omega
  · have hlen : ∀ s fs, (runFrames s fs).storageValues.len = s.storageValues.len := by
      intro s fs
      induction fs generalizing s with
      | nil => rfl
      | cons f fs ih =>
        exact (ih (render s f.1 f.2.1 f.2.2)).trans (updateStorageValues_len _ _ _ _)
    rw [hlen]
    show (F32Array.zeros (changingStorageBufferSize n / 4)).len * 4 = changingStorageBufferSize n
    simp only [F32Array.zeros, changingStorageBufferSize, changingUnitSize]
    omega

/-- C3: the update loop is a pure function of the record list and its
arguments; running it a second time with the same time and aspect on its
own output changes nothing (idempotence). -/
theorem c3_update_idempotent (infos : List ObjectInfo) (t asp : ℚ) (a : F32Array)
    (hlen : 4 * infos.length ≤ a.len) :
    updateStorageValues infos t asp (updateStorageValues infos t asp a)
      = updateStorageValues infos t asp a := by
  have hlen2 : 4 * infos.length ≤ (updateStorageValues infos t asp a).len := by
    rw [updateStorageValues_len]; exact hlen
  apply F32Array.eq_of
  · rw [updateStorageValues_len]
  · intro j
    rw [updateStorageValues_data infos t asp _ hlen2 j]
    by_cases hc : j < 4 * infos.length ∧ j % 4 < 3
    · rw [if_pos hc, updateStorageValues_data infos t asp a hlen j, if_pos hc]
    · rw [if_neg hc]

/-- Witness for C3 at a concrete state: one record, time 5, aspect 2. -/
theorem c3_update_idempotent_witness :
    updateStorageValues [⟨1/2⟩] 5 2 (updateStorageValues [⟨1/2⟩] 5 2 (F32Array.zeros 4))
      = updateStorageValues [⟨1/2⟩] 5 2 (F32Array.zeros 4) :=
  c3_update_idempotent [⟨1/2⟩] 5 2 (F32Array.zeros 4) (by decide)

/-- C4: when the capability gate fails to obtain a device or a context,
`main` emits exactly one error message, performs no pipeline or buffer
creation, and does nothing else (the trace is just the one message). -/
theorem c4_capability_gate (d c : Bool) (h : d = false ∨ c = false) :
    ((mainTrace d c).filter InitEvent.isError).length = 1 ∧
    ((mainTrace d c).filter InitEvent.createsResource).length = 0 ∧
    (mainTrace d c).length = 1 := by
  rcases h with h | h
  · subst h
    simp [mainTrace, InitEvent.isError, InitEvent.createsResource]
  · subst h
    cases d <;>
      simp [mainTrace, InitEvent.isError, InitEvent.createsResource]

/-- Witness for C4: no usable device (context present). -/
theorem c4_capability_gate_witness :
    ((mainTrace false true).filter InitEvent.isError).length = 1 ∧
    ((mainTrace false true).filter InitEvent.createsResource).length = 0 ∧
    (mainTrace false true).length = 1 :=
  c4_capability_gate false true (Or.inl rfl)

/-- C5: within each packed record the declared field byte offsets are
pairwise non-overlapping and contiguous, field sizes plus the explicit
padding account for exactly the declared stride, and every stride is a
multiple of 16 bytes.  Checked for the storage demo's static and changing
records and for the combined-struct demo's record. -/
theorem c5_packed_layout :
    (4 * StorageBuffers.kColorOffset + 4 * 4 = 4 * StorageBuffers.kOffsetOffset ∧
      4 * StorageBuffers.kOffsetOffset + 2 * 4 + 2 * 4 = StorageBuffers.staticUnitSize ∧
      StorageBuffers.staticUnitSize % 16 = 0) ∧
    (4 * StorageBuffers.kScaleOffset + 2 * 4 = 4 * StorageBuffers.kTimeOffset ∧
      4 * StorageBuffers.kTimeOffset + 1 * 4 + 1 * 4 = StorageBuffers.changingUnitSize ∧
      StorageBuffers.changingUnitSize % 16 = 0) ∧
    (4 * Uniforms.kColorOffset + 4 * 4 = 4 * Uniforms.kOffsetOffset ∧
      4 * Uniforms.kOffsetOffset + 2 * 4 + 2 * 4 = Uniforms.staticUniformBufferSize ∧
      Uniforms.staticUniformBufferSize % 16 = 0 ∧
      4 * Uniforms.kScaleOffset + 2 * 4 = 4 * Uniforms.kTimeOffset ∧
      4 * Uniforms.kTimeOffset + 1 * 4 + 1 * 4 = Uniforms.uniformBufferSize ∧
      Uniforms.uniformBufferSize % 16 = 0) ∧
    (4 * CombinedUniform.kColorOffset + 4 * 4 = 4 * CombinedUniform.kScaleOffset ∧
      4 * CombinedUniform.kScaleOffset + 2 * 4 = 4 * CombinedUniform.kOffsetOffset ∧
      4 * CombinedUniform.kOffsetOffset + 2 * 4 = 4 * CombinedUniform.kTimeOffset ∧
      4 * CombinedUniform.kTimeOffset + 1 * 4 + 3 * 4 = CombinedUniform.uniformBufferSize ∧
      CombinedUniform.uniformBufferSize % 16 = 0) := by
  decide

/-- C6: for every object count `n ≥ 0`, initialization allocates exactly
`n` records, and the packed static and changing buffers have byte sizes
`n * staticUnitSize` and `n * changingUnitSize` respectively (both as the
declared buffer sizes and as the actual allocated array sizes). -/
theorem c6_allocation_sizes (n : Nat) (rng : Nat → ℚ) :
    (initState n rng).objectInfos.length = n ∧
    staticStorageBufferSize n = n * staticUnitSize ∧
    changingStorageBufferSize n = n * changingUnitSize ∧
    (initState n rng).staticValues.len * 4 = n * staticUnitSize ∧
    (initState n rng).storageValues.len * 4 = n * changingUnitSize := by
  refine ⟨objectInfos_length n rng, Nat.mul_comm _ _, Nat.mul_comm _ _, ?_, ?_⟩
  · show (staticStorageValues n rng).len * 4 = n * staticUnitSize
    rw [staticStorageValues_len]
    simp only [staticStorageBufferSize, staticUnitSize]
    omega
  · show (F32Array.zeros (changingStorageBufferSize n / 4)).len * 4 = n * changingUnitSize
    simp only [F32Array.zeros, changingStorageBufferSize, changingUnitSize]
    omega

/-- C7: every record's static fields are drawn from the fixed ranges:
color channels in `[0, 1]`, offset components in `[-1, 1]`, and the
CPU-side base scale factor in `[0.2, 0.5]` (its `rand` helper is modelled
from the spec). -/
theorem c7_random_ranges (n : Nat) (rng : Nat → ℚ)
    (hr : ∀ k, 0 ≤ rng k ∧ rng k < 1) (i : Nat) (hi : i < n) :
    (0 ≤ (staticStorageValues n rng).data (8 * i) ∧
      (staticStorageValues n rng).data (8 * i) ≤ 1) ∧
    (0 ≤ (staticStorageValues n rng).data (8 * i + 1) ∧
      (staticStorageValues n rng).data (8 * i + 1) ≤ 1) ∧
    (0 ≤ (staticStorageValues n rng).data (8 * i + 2) ∧
      (staticStorageValues n rng).data (8 * i + 2) ≤ 1) ∧
    (-1 ≤ (staticStorageValues n rng).data (8 * i + 4) ∧
      (staticStorageValues n rng).data (8 * i + 4) ≤ 1) ∧
    (-1 ≤ (staticStorageValues n rng).data (8 * i + 5) ∧
      (staticStorageValues n rng).data (8 * i + 5) ≤ 1) ∧
    (2/10 ≤ ((objectInfos n rng).getD i default).scale ∧
      ((objectInfos n rng).getD i default).scale ≤ 5/10) := by
  refine ⟨?_, ?_, ?_, ?_, ?_, ?_⟩
  · rw [staticStorageValues_data, if_pos (by omega),
      show 8 * i / 8 = i from by omega, show 8 * i % 8 = 0 from by omega]
    simp only [staticValue, if_pos rfl]
    exact rand_mem_Icc _ _ _ (hr _).1 (hr _).2 (by norm_num)
  · rw [staticStorageValues_data, if_pos (by omega),
      show (8 * i + 1) / 8 = i from by omega, show (8 * i + 1) % 8 = 1 from by omega]
    simp only [staticValue]
    norm_num
    exact rand_mem_Icc _ _ _ (hr _).1 (hr _).2 (by norm_num)
  · rw [staticStorageValues_data, if_pos (by omega),
      show (8 * i + 2) / 8 = i from by omega, show (8 * i + 2) % 8 = 2 from by omega]
    simp only [staticValue]
    norm_num
    exact rand_mem_Icc _ _ _ (hr _).1 (hr _).2 (by norm_num)
  · rw [staticStorageValues_data, if_pos (by omega),
      show (8 * i + 4) / 8 = i from by omega, show (8 * i + 4) % 8 = 4 from by omega]
    simp only [staticValue]
    norm_num
    exact rand_mem_Icc _ _ _ (hr _).1 (hr _).2 (by norm_num)
  · rw [staticStorageValues_data, if_pos (by omega),
      show (8 * i + 5) / 8 = i from by omega, show (8 * i + 5) % 8 = 5 from by omega]
    simp only [staticValue]
    norm_num
    exact rand_mem_Icc _ _ _ (hr _).1 (hr _).2 (by norm_num)
  · rw [objectInfos_getD n rng i hi]
    exact rand_mem_Icc _ _ _ (hr _).1 (hr _).2 (by norm_num)

/-- Witness for C7: one record drawn with every random sample `1/2`. -/
theorem c7_random_ranges_witness :
    (0 ≤ (staticStorageValues 1 (fun _ => 1/2)).data (8 * 0) ∧
      (staticStorageValues 1 (fun _ => 1/2)).data (8 * 0) ≤ 1) ∧
    (0 ≤ (staticStorageValues 1 (fun _ => 1/2)).data (8 * 0 + 1) ∧
      (staticStorageValues 1 (fun _ => 1/2)).data (8 * 0 + 1) ≤ 1) ∧
    (0 ≤ (staticStorageValues 1 (fun _ => 1/2)).data (8 * 0 + 2) ∧
      (staticStorageValues 1 (fun _ => 1/2)).data (8 * 0 + 2) ≤ 1) ∧
    (-1 ≤ (staticStorageValues 1 (fun _ => 1/2)).data (8 * 0 + 4) ∧
      (staticStorageValues 1 (fun _ => 1/2)).data (8 * 0 + 4) ≤ 1) ∧
    (-1 ≤ (staticStorageValues 1 (fun _ => 1/2)).data (8 * 0 + 5) ∧
      (staticStorageValues 1 (fun _ => 1/2)).data (8 * 0 + 5) ≤ 1) ∧
    (2/10 ≤ ((objectInfos 1 (fun _ => 1/2)).getD 0 default).scale ∧
      ((objectInfos 1 (fun _ => 1/2)).getD 0 default).scale ≤ 5/10) :=
  c7_random_ranges 1 (fun _ => 1/2) (fun _ => by norm_num) 0 (by norm_num)

/-- C8: on every invocation of the frame callback, rescheduling for the
next frame is the very first action, exactly one reschedule happens per
frame (the loop has no terminal state), and the per-frame work (upload,
draw, submit) all comes after it. -/
theorem c8_reschedule_first (n : Nat) :
    (renderEvents n).head? = some FrameEvent.scheduleNextFrame ∧
    (renderEvents n).count FrameEvent.scheduleNextFrame = 1 ∧
    FrameEvent.uploadDynamic ∈ (renderEvents n).tail ∧
    FrameEvent.draw ∈ (renderEvents n).tail ∧
    FrameEvent.submit ∈ (renderEvents n).tail := by
  refine ⟨rfl, ?_, ?_, ?_, ?_⟩
  · simp only [renderEvents, List.count_append, List.count_cons, List.count_nil]
    have hmap : ((List.range n).map fun _ => FrameEvent.updateRecord).count
        FrameEvent.scheduleNextFrame = 0 := by
      rw [List.count_eq_zero]
      intro hmem
      rcases List.mem_map.mp hmem with ⟨x, _, hx⟩
      exact FrameEvent.noConfusion hx
    rw [hmap]
    decide
  · simp [renderEvents]
  · simp [renderEvents]
  · simp [renderEvents]

/-- C9: the elapsed time the frame callback uses is read from its
timestamp argument (`timeStamp ?? 0`), so it equals the supplied timestamp
when one is present and defaults to zero when the argument is absent, as
on a bare first call. -/
theorem c9_time_from_timestamp (s : DemoState) (w h ts : ℚ)
    (hn : 0 < s.objectInfos.length)
    (hlen : 4 * s.objectInfos.length ≤ s.storageValues.len) :
    (render s (some ts) w h).storageValues.data kTimeOffset = ts ∧
    (render s none w h).storageValues.data kTimeOffset = 0 := by
  constructor
  · show (updateStorageValues s.objectInfos ((some ts).getD 0) (w / h)
        s.storageValues).data kTimeOffset = ts
    rw [Option.getD_some,
      updateStorageValues_data s.objectInfos ts (w / h) s.storageValues hlen,
      if_pos (by simp only [kTimeOffset]; omega)]
    simp [kTimeOffset, updatedValue]
  · show (updateStorageValues s.objectInfos ((none : Option ℚ).getD 0) (w / h)
        s.storageValues).data kTimeOffset = 0
    rw [Option.getD_none,
      updateStorageValues_data s.objectInfos 0 (w / h) s.storageValues hlen,
      if_pos (by simp only [kTimeOffset]; omega)]
    simp [kTimeOffset, updatedValue]

/-- Witness for C9: the freshly initialized one-record state. -/
theorem c9_time_from_timestamp_witness :
    (render (initState 1 (fun _ => 1/2)) (some 7) 4 2).storageValues.data kTimeOffset = 7 ∧
    (render (initState 1 (fun _ => 1/2)) none 4 2).storageValues.data kTimeOffset = 0 :=
  c9_time_from_timestamp (initState 1 (fun _ => 1/2)) 4 2 7
    (by simp [initState, objectInfos_length])
    (by simp [initState, objectInfos_length]; decide)

/-- C10: every record's alpha channel is the constant 1 (for any random
stream), while the first three channels are exactly the drawn random
values, and this holds after any number of frames since the static values
are never rewritten. -/
theorem c10_alpha_constant_one (n : Nat) (rng : Nat → ℚ) (i : Nat) (hi : i < n)
    (frames : List (Option ℚ × ℚ × ℚ)) :
    (runFrames (initState n rng) frames).staticValues.data (8 * i + 3) = 1 ∧
    (runFrames (initState n rng) frames).staticValues.data (8 * i)
      = rand (rng (6 * i)) 0 1 ∧
    (runFrames (initState n rng) frames).staticValues.data (8 * i + 1)
      = rand (rng (6 * i + 1)) 0 1 ∧
    (runFrames (initState n rng) frames).staticValues.data (8 * i + 2)
      = rand (rng (6 * i + 2)) 0 1 := by
  rw [runFrames_staticValues]
  show (staticStorageValues n rng).data (8 * i + 3) = 1 ∧
    (staticStorageValues n rng).data (8 * i) = rand (rng (6 * i)) 0 1 ∧
    (staticStorageValues n rng).data (8 * i + 1) = rand (rng (6 * i + 1)) 0 1 ∧
    (staticStorageValues n rng).data (8 * i + 2) = rand (rng (6 * i + 2)) 0 1
  refine ⟨?_, ?_, ?_, ?_⟩
  · rw [staticStorageValues_data, if_pos (by omega),
      show (8 * i + 3) / 8 = i from by omega, show (8 * i + 3) % 8 = 3 from by omega]
    simp [staticValue]
  · rw [staticStorageValues_data, if_pos (by omega),
      show 8 * i / 8 = i from by omega, show 8 * i % 8 = 0 from by omega]
    simp [staticValue]
  · rw [staticStorageValues_data, if_pos (by omega),
      show (8 * i + 1) / 8 = i from by omega, show (8 * i + 1) % 8 = 1 from by omega]
    simp [staticValue]
  · rw [staticStorageValues_data, if_pos (by omega),
      show (8 * i + 2) / 8 = i from by omega, show (8 * i + 2) % 8 = 2 from by omega]
    simp [staticValue]

/-- Witness for C10: one record, sample stream constantly `1/2`, one
rendered frame. -/
theorem c10_alpha_constant_one_witness :
    (runFrames (initState 1 (fun _ => 1/2)) [(some 3, 4, 2)]).staticValues.data (8 * 0 + 3)
      = 1 ∧
    (runFrames (initState 1 (fun _ => 1/2)) [(some 3, 4, 2)]).staticValues.data (8 * 0)
      = rand ((fun _ => (1:ℚ)/2) (6 * 0)) 0 1 ∧
    (runFrames (initState 1 (fun _ => 1/2)) [(some 3, 4, 2)]).staticValues.data (8 * 0 + 1)
      = rand ((fun _ => (1:ℚ)/2) (6 * 0 + 1)) 0 1 ∧
    (runFrames (initState 1 (fun _ => 1/2)) [(some 3, 4, 2)]).staticValues.data (8 * 0 + 2)
      = rand ((fun _ => (1:ℚ)/2) (6 * 0 + 2)) 0 1 :=
  c10_alpha_constant_one 1 (fun _ => 1/2) 0 (by norm_num) [(some 3, 4, 2)]

end StorageBuffers
